import Mathlib

/-!
Shallow embedding of the winget_updater update-detection engine
(`update_checker.py`) and of the IPC request dispatch (`ipc_handler.py`),
together with theorems settling the frozen specification claims.

Python strings are modelled as `List Char` (ASCII, which is what the
winget CLI emits) and wrapped into Lean `String` at record boundaries.
Machine-level details that the claims do not touch (logging, timestamps
inside IPC envelopes) are omitted; every filtering and parsing decision
is translated operation by operation from the source.
-/

namespace WingetUpdater

/-- Python `str` whitespace test (`\s` of the `re` module), restricted to
the ASCII range that winget output uses. -/
def isPySpace (c : Char) : Bool :=
  c = ' ' || c = '\t' || c = '\n' || c = '\r' || c = '\x0b' || c = '\x0c'

/-- Python `str.strip()`. -/
def pyStrip (cs : List Char) : List Char :=
  ((cs.dropWhile isPySpace).reverse.dropWhile isPySpace).reverse

/-- Python `str.isdigit()` for ASCII characters (`'0'..'9'`). -/
def pyIsDigit (c : Char) : Bool :=
  48 ≤ c.toNat && c.toNat ≤ 57

/-- Python `str.lower()` on one ASCII character. -/
def pyLower (c : Char) : Char :=
  if 65 ≤ c.toNat && c.toNat ≤ 90 then Char.ofNat (c.toNat + 32) else c

/-- Python `str.lower()`. -/
def lowerChars (cs : List Char) : List Char := cs.map pyLower

/-- Python `any(char.isdigit() for char in s)`. -/
def hasDigit (cs : List Char) : Bool := cs.any pyIsDigit

/-- Helper for `re.findall(r'\d+', s)`: accumulates the current digit run
(reversed) while scanning the characters. -/
def findallDigitsAux : List Char → List Char → List (List Char)
  | [], cur => if cur = [] then [] else [cur.reverse]
  | c :: rest, cur =>
    if pyIsDigit c then findallDigitsAux rest (c :: cur)
    else if cur = [] then findallDigitsAux rest []
    else cur.reverse :: findallDigitsAux rest []

/-- Python `re.findall(r'\d+', s)`: the maximal runs of decimal digits. -/
def findallDigits (cs : List Char) : List (List Char) := findallDigitsAux cs []

/-- Python `int(s)` on a non-empty digit string. -/
def pyIntOfDigits (cs : List Char) : Nat :=
  cs.foldl (fun n c => 10 * n + (c.toNat - 48)) 0

/-- `WingetUpdateChecker._is_valid_version_comparison`: validates that
comparing the two version strings is reliable. -/
def is_valid_version_comparison (current_version available_version : String) : Bool :=
  -- Check for empty or unknown versions
  if current_version.data = [] || available_version.data = []
      || lowerChars current_version.data = "unknown".data
      || lowerChars available_version.data = "unknown".data then
    false
  -- Check for non-comparable versions (strings without numbers)
  else if !hasDigit current_version.data || !hasDigit available_version.data then
    false
  else
    -- Extract numeric parts for basic comparison
    let current_nums := (findallDigits current_version.data).map pyIntOfDigits
    let available_nums := (findallDigits available_version.data).map pyIntOfDigits
    if current_nums ≠ [] ∧ available_nums ≠ [] then true else false

/-- Does `needle` occur at the start of `hay`? (Python `str.startswith`.) -/
def startsWithSeq : List Char → List Char → Bool
  | _, [] => true
  | [], _ :: _ => false
  | c :: cs, d :: ds => c = d && startsWithSeq cs ds

/-- Does `needle` occur anywhere inside `hay`? (Python `needle in hay`.) -/
def containsSeq : List Char → List Char → Bool
  | [], needle => needle.isEmpty
  | c :: rest, needle => startsWithSeq (c :: rest) needle || containsSeq rest needle

/-- One step of `re.split(r'\s{2,}', s)`: `cur` holds the current column
(reversed).  A run of two or more whitespace characters separates columns;
a single whitespace character stays inside the column.  `fuel` only bounds
the recursion (each step consumes at least one character, so
`fuel = cs.length` never runs out). -/
def splitWs2Go : Nat → List Char → List Char → List (List Char)
  | _, [], cur => [cur.reverse]
  | 0, cs, cur => [cur.reverse ++ cs]
  | fuel + 1, c :: rest, cur =>
    if isPySpace c then
      match rest with
      | [] => [(c :: cur).reverse]
      | c2 :: _ =>
        if isPySpace c2 then
          cur.reverse :: splitWs2Go fuel (rest.dropWhile isPySpace) []
        else
          splitWs2Go fuel rest (c :: cur)
    else
      splitWs2Go fuel rest (c :: cur)

/-- Python `re.split(r'\s{2,}', s)`. -/
def splitWs2 (cs : List Char) : List (List Char) := splitWs2Go cs.length cs []

/-- Greedy match of `\d+(\.\d+)*` group repetition: consumes as many
`.digits` groups as possible, returning the consumed characters and the
remainder. -/
def dotGroups : Nat → List Char → List Char × List Char
  | 0, cs => ([], cs)
  | fuel + 1, cs =>
    match cs with
    | '.' :: rest =>
      let ds := rest.takeWhile pyIsDigit
      if ds = [] then ([], cs)
      else
        let (more, rem) := dotGroups fuel (rest.dropWhile pyIsDigit)
        ('.' :: ds ++ more, rem)
    | _ => ([], cs)

/-- Anchored match of the pattern `\d+(\.\d+)+` at the start of `cs`:
returns the matched characters and the remainder, or `none`.  (Greedy
matching; backtracking the leading `\d+` can never help because the
character after a shortened digit run is still a digit, not a dot.) -/
def matchVersionAt (cs : List Char) : Option (List Char × List Char) :=
  let ds := cs.takeWhile pyIsDigit
  if ds = [] then none
  else
    let rest := cs.dropWhile pyIsDigit
    let (g, rem) := dotGroups rest.length rest
    if g = [] then none else some (ds ++ g, rem)

/-- Python `re.search(r'\d+(\.\d+)+', s)`: the leftmost match. -/
def searchVersion : List Char → Option (List Char)
  | [] => none
  | c :: rest =>
    match matchVersionAt (c :: rest) with
    | some (v, _) => some v
    | none => searchVersion rest

/-- Anchored match of `\s*\([^)]*\)` at the start of `cs`: `\s*` is
greedy (fewer spaces would leave a space, not `(`, next) and `[^)]*` runs
to the first `)`.  Returns the remainder after the match. -/
def matchParenAt (cs : List Char) : Option (List Char) :=
  match cs.dropWhile isPySpace with
  | '(' :: r =>
    match r.dropWhile (fun c => c ≠ ')') with
    | ')' :: r3 => some r3
    | _ => none
  | _ => none

/-- Scanning loop of `re.sub(r'\s*\([^)]*\)', '', s)`: every match is at
least two characters, so `fuel = cs.length` never runs out. -/
def subParenGo : Nat → List Char → List Char
  | 0, cs => cs
  | _, [] => []
  | fuel + 1, c :: rest =>
    match matchParenAt (c :: rest) with
    | some r => subParenGo fuel r
    | none => c :: subParenGo fuel rest

/-- Python `re.sub(r'\s*\([^)]*\)', '', s)`: remove parenthetical groups. -/
def subParen (cs : List Char) : List Char := subParenGo cs.length cs

/-- Does `\s+\d+(\.\d+)+$` match exactly at the start of `cs`, reaching
the end of the string? -/
def trailingVersionAt (cs : List Char) : Bool :=
  let sp := cs.takeWhile isPySpace
  if sp = [] then false
  else
    match matchVersionAt (cs.dropWhile isPySpace) with
    | some (_, rem) => rem = []
    | none => false

/-- Python `re.sub(r'\s+\d+(\.\d+)+$', '', s)`: remove a trailing
whitespace-separated dotted version number. -/
def subTrailingVersion : List Char → List Char
  | [] => []
  | c :: rest =>
    if trailingVersionAt (c :: rest) then [] else c :: subTrailingVersion rest

/-- The comparability predicate exactly as the specification words it:
both version strings non-empty, neither literally "unknown"
(case-insensitive), and each contains at least one decimal digit. -/
def spec_comparable (current_version available_version : String) : Prop :=
  current_version.data ≠ [] ∧ available_version.data ≠ [] ∧
  lowerChars current_version.data ≠ "unknown".data ∧
  lowerChars available_version.data ≠ "unknown".data ∧
  hasDigit current_version.data = true ∧ hasDigit available_version.data = true

/-- The exact header strings recognised by `_is_header_line`. -/
def standard_headers : List (List Char) :=
  ["Name                   Id                    Version     Available   Source".data,
   "Name  Id          Version  Available Source".data,
   "-----------------------------------------------------------------------".data]

/-- `WingetUpdateChecker._is_header_line`. -/
def is_header_line (line : List Char) : Bool :=
  -- Check for exact matches in standard headers
  if standard_headers.any (fun h => pyStrip line = h) then true
  else
    -- More precise pattern matching for headers
    (startsWithSeq (pyStrip line) "Name".data
      && containsSeq line " Id ".data
      && containsSeq line " Version ".data
      && containsSeq line " Available ".data)
    || (startsWithSeq (pyStrip line) "Package".data
      && containsSeq line " ID ".data
      && containsSeq line " Version ".data
      && containsSeq line " Available ".data)

/-- The lowercase informational phrases `_should_skip_line` rejects. -/
def skip_phrases : List (List Char) :=
  ["upgrades available".data,
   "upgrade available".data,
   "no updates found".data,
   "package(s) have".data,
   "prevent upgrade".data,
   "explicit targeting".data]

/-- `WingetUpdateChecker._should_skip_line`. -/
def should_skip_line (line : List Char) : Bool :=
  pyStrip line = []
  || (pyStrip line).all (fun c => c = '-')
  || is_header_line line
  || skip_phrases.any (fun p => containsSeq (lowerChars line) p)

/-- One discoverable package update.  The free-text parser stores an
extra `source` key; the JSON parser does not, hence the `Option`. -/
structure UpdateRecord where
  name : String
  id : String
  current_version : String
  available_version : String
  source : Option String
deriving DecidableEq, Repr

/-- `WingetUpdateChecker._is_package_pinned`: membership in the cached
pin set. -/
def is_package_pinned (pinned_packages : List String) (package_id : String) : Bool :=
  pinned_packages.contains package_id

/-- The loop body of `_process_output_section` for one line of free-text
output: column split, version/name cleanup, then the filter policy.
Returns the appended record, if any. -/
def processLine (pinned_packages : List String)
    (include_pinned include_unknown : Bool) (line : List Char) :
    Option UpdateRecord :=
  -- Skip lines we don't want to process
  if should_skip_line line then none
  else
    -- Split by multiple spaces but preserve name parts
    match (splitWs2 (pyStrip line)).map pyStrip with
    | p0 :: p1 :: p2 :: p3 :: _ =>
      let name0 := p0
      let id_str := p1
      -- Clean up version numbers
      let version :=
        match searchVersion p2 with
        | some v => v
        | none => p2
      let available :=
        match searchVersion p3 with
        | some v => v
        | none => p3
      -- Clean up name
      let name := pyStrip (subTrailingVersion (subParen name0))
      -- Skip packages with unknown versions unless explicitly included
      if (lowerChars version = "unknown".data || version = []) && !include_unknown then
        none
      -- Skip if version comparison is unreliable
      else if !is_valid_version_comparison ⟨version⟩ ⟨available⟩ then
        none
      -- Skip pinned packages unless explicitly included
      else if !include_pinned && is_package_pinned pinned_packages ⟨id_str⟩ then
        none
      -- Only add if we have a valid update
      else if name ≠ [] && id_str ≠ [] && version ≠ [] && available ≠ []
          && version ≠ available then
        some ⟨⟨name⟩, ⟨id_str⟩, ⟨version⟩, ⟨available⟩, some "winget"⟩
      else
        none
    | _ => none

/-- `WingetUpdateChecker._process_output_section`: surviving records
of a section, in encounter order. -/
def process_output_section (pinned_packages : List String)
    (include_pinned include_unknown : Bool) (section_lines : List (List Char)) :
    List UpdateRecord :=
  section_lines.filterMap (processLine pinned_packages include_pinned include_unknown)

/-- One entry of a `Sources[].Packages` mapping in winget's JSON output
(fields are `Option` because the code tests key presence with `in` /
`.get`). -/
structure PkgInfo where
  Name : Option String
  Version : Option String
  AvailableVersion : Option String
deriving DecidableEq, Repr

/-- One entry of a `Data[]` array in winget's JSON output. -/
structure DataItem where
  Name : Option String
  Id : Option String
  Version : Option String
  AvailableVersion : Option String
deriving DecidableEq, Repr

/-- The decoded shape of one winget JSON document, as
`_parse_winget_json` distinguishes them: a top-level `Sources` key, a
top-level `Data` key, any other successfully decoded document, or text
that `json.loads` rejects. -/
inductive WingetJson where
  | sources (srcs : List (List (String × PkgInfo)))
  | dataItems (items : List DataItem)
  | other
  | malformed
deriving DecidableEq, Repr

/-- The loop body of the `Data` branch of `_parse_winget_json` for one
array item: key-presence check, then the filter policy. -/
def processDataItem (pinned_packages : List String)
    (include_pinned include_unknown : Bool) (item : DataItem) :
    Option UpdateRecord :=
  match item.Name, item.Id, item.Version, item.AvailableVersion with
  | some nm, some id_str, some current_version, some available_version =>
    -- Skip packages with unknown versions unless explicitly included
    if (current_version = "Unknown" || current_version = "") && !include_unknown then
      none
    -- Skip if version comparison is unreliable
    else if !is_valid_version_comparison current_version available_version then
      none
    -- Skip pinned packages unless explicitly included
    else if !include_pinned && is_package_pinned pinned_packages id_str then
      none
    else if current_version ≠ available_version then
      some ⟨nm, id_str, current_version, available_version, none⟩
    else
      none
  | _, _, _, _ => none

/-- `WingetUpdateChecker._parse_winget_json`.  `none` models the paths on
which the Python function returns `None`: a `json.JSONDecodeError`, and —
crucially — the whole `Sources` branch, which initialises `packages` as a
Python *list*, extends it, and then iterates `packages.items()`; a list
has no `.items()` method, so an `AttributeError` is raised on every
`Sources`-shaped document and the enclosing `except Exception` handler
returns `None`.  A document with neither key yields an empty update
list.  -/
def parse_winget_json (doc : WingetJson)
    (include_pinned include_unknown : Bool) (pinned_packages : List String) :
    Option (List UpdateRecord) :=
  match doc with
  | .malformed => none
  | .sources _ => none
  | .dataItems items =>
    some (items.filterMap (processDataItem pinned_packages include_pinned include_unknown))
  | .other => some []

/-- Python `s.split('\n')` (which keeps empty pieces). -/
def splitLinesAux : List Char → List Char → List (List Char)
  | [], cur => [cur.reverse]
  | c :: rest, cur =>
    if c = '\n' then cur.reverse :: splitLinesAux rest []
    else splitLinesAux rest (c :: cur)

def splitLines (cs : List Char) : List (List Char) := splitLinesAux cs []

/-- The section-marker phrases of `_parse_winget_output`. -/
def section_markers : List (List Char) :=
  ["The following packages have an upgrade available, but require explicit targeting for upgrade:".data,
   "have version numbers that cannot be determined".data,
   "have pins that prevent upgrade".data]

/-- `WingetUpdateChecker._split_output_into_sections`: `cur` is the
section being gathered, `inFirst` tracks `in_first_section`. -/
def splitSectionsAux : List (List Char) → List (List Char) → Bool → List (List (List Char))
  | [], cur, _ => if cur = [] then [] else [cur]
  | line :: rest, cur, inFirst =>
    if section_markers.any (fun m => containsSeq line m) then
      if cur = [] then splitSectionsAux rest [line] false
      else cur :: splitSectionsAux rest [line] false
    else if inFirst && is_header_line line then
      if cur = [] then splitSectionsAux rest [line] inFirst
      else cur :: splitSectionsAux rest [line] inFirst
    else
      splitSectionsAux rest (cur ++ [line]) inFirst

def split_output_into_sections (lines : List (List Char)) : List (List (List Char)) :=
  splitSectionsAux lines [] true

/-- `WingetUpdateChecker._parse_winget_output`: the update list produced
from free-text CLI output (the no-updates phrases yield an explicit empty
result). -/
def parse_winget_output (output : String)
    (include_pinned include_unknown : Bool) (pinned_packages : List String) :
    List UpdateRecord :=
  let lines := splitLines (pyStrip output.data)
  -- Check for common no-updates patterns
  if lines.any (fun l =>
      containsSeq l "No updates found.".data || containsSeq l "No available upgrades.".data) then
    []
  else
    (split_output_into_sections lines).foldl
      (fun acc sec =>
        acc ++ process_output_section pinned_packages include_pinned include_unknown sec)
      []

/-- `WingetUpdateChecker._refresh_pinned_packages`: the pin cache built
from the `winget pin list` output; `none` (non-zero exit or spawn
failure) leaves the freshly reset cache empty. -/
def refresh_pinned_packages (pin_list_output : Option String) : List String :=
  match pin_list_output with
  | none => []
  | some out =>
    (splitLines (pyStrip out.data)).foldl
      (fun acc line =>
        -- Skip header lines and separators
        if pyStrip line = [] || containsSeq line "---".data
            || (containsSeq line "Name".data && containsSeq line "Id".data) then
          acc
        else
          match (splitWs2 (pyStrip line)).map pyStrip with
          | _ :: p1 :: _ => acc ++ [String.mk p1]
          | _ => acc)
      []

/-- The engine state the claims quantify over (`WingetUpdateChecker`'s
mutable fields; wall-clock timestamps are abstracted to `Nat`). -/
structure CheckerState where
  available_updates : List UpdateRecord
  update_count : Nat
  last_check_time : Option Nat
  is_checking : Bool
  pinned_packages : List String
deriving DecidableEq, Repr

/-- The outside world of one `check_updates` run: the `winget pin list`
stdout (`none` = failure), the outcome of each attempted JSON-format
command (`none` = non-zero exit, `some doc` = zero exit with stdout
decoding as `doc`), the text-format command's stdout (`none` = non-zero
exit), and the current time. -/
structure CheckEnv where
  pin_list_output : Option String
  json_results : List (Option WingetJson)
  text_result : Option String
  now : Nat
deriving DecidableEq, Repr

/-- `_check_updates_json`'s command loop: the first command that exits
with code zero wins and its parse result is returned immediately,
whether or not that parse succeeds. -/
def firstSuccess : List (Option WingetJson) → Option WingetJson
  | [] => none
  | some doc :: _ => some doc
  | none :: rest => firstSuccess rest

/-- The structured phase of `check_updates`: `none` exactly when the text
fallback is taken (all commands failed, or the winning command's output
did not parse). -/
def json_phase (env : CheckEnv) (include_pinned include_unknown : Bool)
    (pinned_packages : List String) : Option (List UpdateRecord) :=
  (firstSuccess env.json_results).bind
    (fun doc => parse_winget_json doc include_pinned include_unknown pinned_packages)

/-- Result of one `check_updates` call: the returned count, the final
engine state, and whether any CLI subprocess was spawned. -/
structure CheckOutcome where
  ret : Nat
  state : CheckerState
  spawned : Bool
deriving DecidableEq, Repr

/-- Resolution of an optional flag argument: an explicit argument wins;
otherwise the configuration collaborator's value; with no configuration
the Python `None` is simply falsy. -/
def resolve_flag (explicit : Option Bool) (cfg : Option Bool) : Bool :=
  match explicit with
  | some b => b
  | none => cfg.getD false

/-- The text-format fallback tail of `check_updates` (lines 130-163 of
`update_checker.py`), starting from the state `sR` that already has the
update list reset and the pin cache refreshed. -/
def check_updates_text (include_pinned include_unknown : Bool)
    (env : CheckEnv) (sR : CheckerState) : CheckOutcome :=
  match env.text_result with
  | none => ⟨0, { sR with is_checking := false }, true⟩
  | some out =>
    let ups := parse_winget_output out include_pinned include_unknown sR.pinned_packages
    ⟨ups.length,
     { sR with
        available_updates := ups
        update_count := ups.length
        last_check_time := some env.now
        is_checking := false },
     true⟩

/-- `WingetUpdateChecker.check_updates`.  `config` is the configuration
collaborator's `(include_pinned, include_unknown)` settings, if a
configuration manager is attached.  The in-progress guard is set on
entry and cleared in the `finally` block, so every exit except the early
guard return leaves `is_checking = false`. -/
def check_updates (force : Bool) (include_pinned include_unknown : Option Bool)
    (config : Option (Bool × Bool)) (env : CheckEnv) (s : CheckerState) :
    CheckOutcome :=
  if s.is_checking && !force then
    ⟨s.update_count, s, false⟩
  else
    -- Get settings from config_manager if not explicitly provided
    let ip := resolve_flag include_pinned (config.map Prod.fst)
    let iu := resolve_flag include_unknown (config.map Prod.snd)
    -- Always clear cached updates; refresh the list of pinned packages
    let pins := refresh_pinned_packages env.pin_list_output
    let sR := { s with
        available_updates := ([] : List UpdateRecord)
        update_count := 0
        pinned_packages := pins }
    -- First try JSON format, falling back to text format
    match json_phase env ip iu pins with
    | some ups =>
      ⟨ups.length,
       { sR with
          available_updates := ups
          update_count := ups.length
          last_check_time := some env.now
          is_checking := false },
       true⟩
    | none => check_updates_text ip iu env sR

/-- The outside world of one `install_all_updates` run: the environment
of the pre-install forced check, the `winget upgrade --all` exit code
(`none` = the invocation raised), and the environment of the
verification re-check. -/
structure InstallEnv where
  pre : CheckEnv
  upgrade_returncode : Option Int
  post : CheckEnv
deriving DecidableEq, Repr

/-- Result of `install_all_updates`: the boolean return value, whether
the upgrade command was invoked, whether the verification re-check ran,
and the final engine state. -/
structure InstallOutcome where
  ok : Bool
  upgrade_invoked : Bool
  recheck_done : Bool
  state : CheckerState
deriving DecidableEq, Repr

/-- The engine state after `install_all_updates`'s initial forced check
(`include_pinned=True, include_unknown=True`). -/
def pre_check_state (config : Option (Bool × Bool)) (env : InstallEnv)
    (s : CheckerState) : CheckerState :=
  (check_updates true (some true) (some true) config env.pre s).state

/-- The engine state after `install_all_updates`'s verification re-check
(called with no explicit flags). -/
def verify_check_state (config : Option (Bool × Bool)) (env : InstallEnv)
    (s : CheckerState) : CheckerState :=
  (check_updates true none none config env.post (pre_check_state config env s)).state

/-- `WingetUpdateChecker.install_all_updates`. -/
def install_all_updates (config : Option (Bool × Bool)) (env : InstallEnv)
    (s : CheckerState) : InstallOutcome :=
  -- Force a fresh check to ensure we have current updates
  let s1 := pre_check_state config env s
  if s1.available_updates = [] then
    ⟨true, false, false, s1⟩
  else
    -- Store the list of updates we're about to install for verification
    let updates_to_install := s1.available_updates
    match env.upgrade_returncode with
    | none => ⟨false, true, false, s1⟩
    | some rc =>
      if rc = 0 then
        -- Force a fresh check to verify updates were installed
        let s2 := verify_check_state config env s
        let still_pending := updates_to_install.filter
          (fun u => s2.available_updates.any (fun c => c.id = u.id))
        if still_pending.isEmpty then ⟨true, true, true, s2⟩
        else ⟨false, true, true, s2⟩
      else
        ⟨false, true, false, s1⟩

/-- The data slot of an IPC envelope: a handler result payload or an
error message mapping. -/
inductive IPCData (α : Type) where
  | payload (a : α)
  | errMsg (message : String)
deriving DecidableEq

/-- The IPC envelope (`IPCMessage` in `ipc_handler.py`); the wall-clock
`timestamp` field carries no protocol meaning and is not modelled. -/
structure IPCEnvelope (α : Type) where
  command : String
  data : IPCData α
deriving DecidableEq

/-- One request as the server loop sees it after `IPCMessage.from_json`:
either a decoded `command`/`data` envelope or bytes that failed to
decode (`from_json` returned `None`). -/
inductive RawRequest (α : Type) where
  | invalid
  | valid (command : String) (data : α)
deriving DecidableEq

/-- `IPCServer._handle_command`: dispatch to the registered handler map;
a handler that raises is modelled by `Except.error`. -/
def handle_command (handlers : List (String × (α → Except String α)))
    (command : String) (data : α) : IPCEnvelope α :=
  match handlers.lookup command with
  | some h =>
    match h data with
    | .ok result => ⟨"response", .payload result⟩
    | .error e => ⟨"error", .errMsg e⟩
  | none => ⟨"error", .errMsg ("Unknown command: " ++ command)⟩

/-- The per-request body of `IPCServer._run_server`'s inner loop: the
envelope written back for one received request, if any.  A request whose
bytes do not decode hits `if not message: continue` and gets no reply. -/
def process_request (handlers : List (String × (α → Except String α)))
    (req : RawRequest α) : Option (IPCEnvelope α) :=
  match req with
  | .invalid => none
  | .valid command data => some (handle_command handlers command data)

/-- A `Sources[].Packages` document with one entry that differs in
version, is comparable, unpinned and has a known current version. -/
def c1_sources_doc : WingetJson :=
  .sources [[("Foo.Bar", ⟨some "Foo Bar", some "1.2.3", some "1.2.4"⟩)]]

/-- A well-formed free-text update line. -/
def c2_line : List Char := "Some App  Some.App  2.0.1  2.0.2  winget".data

/-- A well-formed JSON `Data[]` entry. -/
def c2_item : DataItem := ⟨some "App", some "App.Id", some "1.0", some "2.0"⟩

def c3_record : UpdateRecord := ⟨"App", "App.Id", "1.0", "2.0", none⟩

/-- An engine state holding the result of a prior successful check. -/
def c3_state : CheckerState := ⟨[c3_record], 1, some 5, false, []⟩

/-- An environment in which every CLI invocation fails. -/
def c3_env : CheckEnv := ⟨none, [none, none, none, none], none, 9⟩

/-- A free-text line whose current-version column is "Unknown". -/
def c4_line : List Char := "App Name  App.Id  Unknown  2.0  winget".data

/-- A JSON `Data[]` entry whose `Version` is "Unknown". -/
def c4_item : DataItem := ⟨some "App", some "App.Id", some "Unknown", some "2.0"⟩

/-- An engine state with a check already in progress. -/
def c6_state : CheckerState := ⟨[], 3, some 1, true, []⟩

def c6_env : CheckEnv := ⟨none, [], none, 0⟩

def c7_item : DataItem := ⟨some "App", some "App.Id", some "1.0", some "2.0"⟩

/-- An install run whose pre-check finds one update, whose upgrade exits
with code zero, and whose verification re-check finds nothing. -/
def c7_env : InstallEnv :=
  ⟨⟨none, [some (WingetJson.dataItems [c7_item])], none, 0⟩,
   some 0,
   ⟨none, [some WingetJson.other], none, 1⟩⟩

def c7_state : CheckerState := ⟨[], 0, none, false, []⟩

/-- An install run whose pre-check finds no updates. -/
def c10_env : InstallEnv := ⟨⟨none, [], none, 0⟩, some 0, ⟨none, [], none, 0⟩⟩

def c10_state : CheckerState := ⟨[], 0, none, false, []⟩

/-- The result-set invariant of §3 of the specification, for one record:
versions differ, the pair is comparable, a pinned id is present only when
policy allows, an unknown or empty current version only when policy
allows. -/
def record_invariant (pinned_packages : List String)
    (include_pinned include_unknown : Bool) (r : UpdateRecord) : Prop :=
  r.current_version ≠ r.available_version ∧
  is_valid_version_comparison r.current_version r.available_version = true ∧
  (is_package_pinned pinned_packages r.id = true → include_pinned = true) ∧
  ((r.current_version = "" ∨ lowerChars r.current_version.data = "unknown".data) →
    include_unknown = true)

instance (cv av : String) : Decidable (spec_comparable cv av) := by
  unfold spec_comparable; infer_instance

lemma findallDigitsAux_eq_nil (cs : List Char) :
    ∀ cur, findallDigitsAux cs cur = [] ↔ (cur = [] ∧ cs.any pyIsDigit = false) := by
  induction cs with
  | nil =>
    intro cur
    by_cases hc : cur = [] <;> simp [findallDigitsAux, hc]
  | cons c rest ih =>
    intro cur
    cases hd : pyIsDigit c
    · by_cases hc : cur = [] <;> simp [findallDigitsAux, hd, ih, hc]
    · simp [findallDigitsAux, hd, ih]

lemma findallDigits_eq_nil (cs : List Char) :
    findallDigits cs = [] ↔ hasDigit cs = false := by
  unfold findallDigits hasDigit
  rw [findallDigitsAux_eq_nil]
  simp

/-- The code's comparability check agrees with the spec's wording. -/
lemma valid_iff_spec (cv av : String) :
    is_valid_version_comparison cv av = true ↔ spec_comparable cv av := by
  unfold is_valid_version_comparison spec_comparable
  by_cases h1 : cv.data = [] <;>
  by_cases h2 : av.data = [] <;>
  by_cases h3 : lowerChars cv.data = "unknown".data <;>
  by_cases h4 : lowerChars av.data = "unknown".data <;>
  by_cases h5 : hasDigit cv.data <;>
  by_cases h6 : hasDigit av.data <;>
  simp [h1, h2, h3, h4, h5, h6, List.map_eq_nil_iff, findallDigits_eq_nil]

lemma pyLower_digit (c : Char) (h : pyIsDigit c = true) : pyLower c = c := by
  unfold pyIsDigit at h
  simp only [Bool.and_eq_true, decide_eq_true_eq] at h
  unfold pyLower
  rw [if_neg]
  simp only [Bool.and_eq_true, decide_eq_true_eq, not_and]
  omega

lemma no_digit_of_lower_unknown (cs : List Char)
    (h : lowerChars cs = "unknown".data) : hasDigit cs = false := by
  by_contra hb
  rw [Bool.not_eq_false, hasDigit, List.any_eq_true] at hb
  obtain ⟨c, hc, hd⟩ := hb
  have hm : pyLower c ∈ lowerChars cs := List.mem_map_of_mem pyLower hc
  rw [h, pyLower_digit c hd] at hm
  have e : "unknown".data = ['u', 'n', 'k', 'n', 'o', 'w', 'n'] := rfl
  rw [e] at hm
  unfold pyIsDigit at hd
  simp only [Bool.and_eq_true, decide_eq_true_eq] at hd
  fin_cases hm <;> simp_all

lemma searchVersion_eq_none (cs : List Char) (h : hasDigit cs = false) :
    searchVersion cs = none := by
  induction cs with
  | nil => rfl
  | cons c rest ih =>
    rw [hasDigit, List.any_cons, Bool.or_eq_false_iff] at h
    obtain ⟨hc, hrest⟩ := h
    unfold searchVersion matchVersionAt
    rw [List.takeWhile_cons_of_neg (by simp [hc])]
    simp only [if_pos rfl]
    exact ih hrest

lemma string_mk_ne (a b : List Char) (h : a ≠ b) : String.mk a ≠ String.mk b := by
  intro he
  exact h (congrArg String.data he)

/-- Records appended by the free-text line parser satisfy the result-set
invariant. -/
lemma processLine_some_inv (pinned_packages : List String)
    (include_pinned include_unknown : Bool) (line : List Char) (r : UpdateRecord)
    (h : processLine pinned_packages include_pinned include_unknown line = some r) :
    record_invariant pinned_packages include_pinned include_unknown r := by
  unfold processLine at h
  split at h
  · exact Option.noConfusion h
  · split at h
    case h_2 => exact Option.noConfusion h
    case h_1 p0 p1 p2 p3 rest heq =>
      dsimp only at h
      split at h
      · exact Option.noConfusion h
      · split at h
        · exact Option.noConfusion h
        · split at h
          · exact Option.noConfusion h
          · split at h
            case isFalse => exact Option.noConfusion h
            case isTrue h1 h2 h3 h4 =>
              rw [Option.some.injEq] at h
              subst h
              rw [Bool.not_eq_true, Bool.not_eq_false'] at h2
              have hv := h2
              simp only [Bool.and_eq_true, decide_eq_true_eq] at h4
              unfold record_invariant
              refine ⟨string_mk_ne _ _ h4.2, hv, ?_, ?_⟩
              · intro hp
                by_contra hip
                rw [Bool.not_eq_true] at hip
                rw [hip] at h3
                simp [hp] at h3
              · intro hcase
                have hs := (valid_iff_spec _ _).mp hv
                rcases hcase with hemp | hunk
                · exact absurd (congrArg String.data hemp) hs.1
                · exact absurd hunk hs.2.2.1

/-- Records appended by the JSON `Data` branch satisfy the result-set
invariant. -/
lemma processDataItem_some_inv (pinned_packages : List String)
    (include_pinned include_unknown : Bool) (item : DataItem) (r : UpdateRecord)
    (h : processDataItem pinned_packages include_pinned include_unknown item = some r) :
    record_invariant pinned_packages include_pinned include_unknown r := by
  unfold processDataItem at h
  split at h
  case h_2 => exact Option.noConfusion h
  case h_1 nm id_str cv av _ _ _ _ =>
    split at h
    · exact Option.noConfusion h
    · split at h
      · exact Option.noConfusion h
      · split at h
        · exact Option.noConfusion h
        · split at h
          case isFalse => exact Option.noConfusion h
          case isTrue h1 h2 h3 h4 =>
            rw [Option.some.injEq] at h
            subst h
            rw [Bool.not_eq_true, Bool.not_eq_false'] at h2
            have hv := h2
            unfold record_invariant
            refine ⟨h4, hv, ?_, ?_⟩
            · intro hp
              by_contra hip
              rw [Bool.not_eq_true] at hip
              rw [hip] at h3
              simp [hp] at h3
            · intro hcase
              have hs := (valid_iff_spec _ _).mp hv
              rcases hcase with hemp | hunk
              · exact absurd (congrArg String.data hemp) hs.1
              · exact absurd hunk hs.2.2.1

/-- `still_pending` in `install_all_updates` is empty exactly when no
pre-install id survives in the re-checked list. -/
lemma still_pending_empty_iff (pre post : List UpdateRecord) :
    (pre.filter (fun u => post.any (fun c => c.id = u.id))).isEmpty = true ↔
    ∀ u ∈ pre, ∀ c ∈ post, c.id ≠ u.id := by
  rw [List.isEmpty_iff, List.filter_eq_nil_iff]
  simp [List.any_eq_true]

/-- C5: the comparability predicate returns true iff both strings are
non-empty, neither is "unknown" case-insensitively, and each contains at
least one decimal digit. -/
theorem C5_comparability_predicate (cv av : String) :
    is_valid_version_comparison cv av = true ↔ spec_comparable cv av :=
  valid_iff_spec cv av

/-- C1: evaluating the structured parser on a `Sources[].Packages`
document whose single entry has differing, comparable versions, is
unpinned and has a known current version: the code yields a parse
failure (`None`) — the `AttributeError` raised by `packages.items()` on
a list — instead of the one mapped `UpdateRecord` the specification
promises. -/
theorem C1_sources_branch_returns_none :
    parse_winget_json c1_sources_doc true true [] = none := rfl

/-- C2: every record present in a parsed result list — free-text or JSON
path, under any flag setting — has differing versions, passes the
comparability predicate, is pinned only if `include_pinned` allows, and
has an unknown/empty current version only if `include_unknown` allows. -/
theorem C2_parse_result_invariant :
    (∀ (pinned_packages : List String) (ip iu : Bool) (lines : List (List Char))
        (r : UpdateRecord),
      r ∈ process_output_section pinned_packages ip iu lines →
      record_invariant pinned_packages ip iu r) ∧
    (∀ (pinned_packages : List String) (ip iu : Bool) (doc : WingetJson)
        (ups : List UpdateRecord) (r : UpdateRecord),
      parse_winget_json doc ip iu pinned_packages = some ups → r ∈ ups →
      record_invariant pinned_packages ip iu r) := by
  constructor
  · intro pinned_packages ip iu lines r hr
    rw [process_output_section, List.mem_filterMap] at hr
    obtain ⟨line, _, hline⟩ := hr
    exact processLine_some_inv pinned_packages ip iu line r hline
  · intro pinned_packages ip iu doc ups r hparse hr
    cases doc with
    | malformed => exact Option.noConfusion hparse
    | sources srcs => exact Option.noConfusion hparse
    | other =>
      simp only [parse_winget_json, Option.some.injEq] at hparse
      subst hparse
      simp at hr
    | dataItems items =>
      simp only [parse_winget_json, Option.some.injEq] at hparse
      subst hparse
      rw [List.mem_filterMap] at hr
      obtain ⟨item, _, hitem⟩ := hr
      exact processDataItem_some_inv pinned_packages ip iu item r hitem

/-- Witness for C2 at concrete inputs on both paths. -/
theorem C2_parse_result_invariant_witness :
    record_invariant [] true true ⟨"Some App", "Some.App", "2.0.1", "2.0.2", some "winget"⟩ ∧
    record_invariant [] true true ⟨"App", "App.Id", "1.0", "2.0", none⟩ := by
  constructor
  · refine C2_parse_result_invariant.1 [] true true [c2_line] _ ?_
    have e : process_output_section [] true true [c2_line] =
        [⟨"Some App", "Some.App", "2.0.1", "2.0.2", some "winget"⟩] := rfl
    rw [e]
    exact List.mem_singleton.mpr rfl
  · refine C2_parse_result_invariant.2 [] true true (WingetJson.dataItems [c2_item])
      [⟨"App", "App.Id", "1.0", "2.0", none⟩] _ rfl ?_
    exact List.mem_singleton.mpr rfl

/-- C3 counterexample: with a populated prior `CheckResult` and every CLI
invocation failing, `check_updates` returns 0 but the prior
`available_updates`/`update_count` are NOT left unchanged — the
start-of-check reset has cleared them. -/
theorem C3_counterexample_state_cleared :
    c3_state.update_count = 1 ∧ c3_state.available_updates = [c3_record] ∧
    (check_updates false none none none c3_env c3_state).ret = 0 ∧
    (check_updates false none none none c3_env c3_state).state.update_count = 0 ∧
    (check_updates false none none none c3_env c3_state).state.available_updates = [] :=
  ⟨rfl, rfl, rfl, rfl, rfl⟩

/-- C3 (amended): when the check actually runs, all structured attempts
fail and the text-path command exits non-zero, the call returns 0 and
`last_check_time` keeps its prior value, but `available_updates` and
`update_count` are left cleared by the start-of-check reset and the pin
cache is refreshed. -/
theorem C3_amended_cli_failure (force : Bool) (ip iu : Option Bool)
    (config : Option (Bool × Bool)) (env : CheckEnv) (s : CheckerState)
    (hguard : (s.is_checking && !force) = false)
    (hjson : json_phase env (resolve_flag ip (config.map Prod.fst))
      (resolve_flag iu (config.map Prod.snd))
      (refresh_pinned_packages env.pin_list_output) = none)
    (htext : env.text_result = none) :
    check_updates force ip iu config env s =
      ⟨0,
       { available_updates := []
         update_count := 0
         last_check_time := s.last_check_time
         is_checking := false
         pinned_packages := refresh_pinned_packages env.pin_list_output },
       true⟩ := by
  unfold check_updates
  rw [hguard]
  dsimp only
  rw [hjson]
  unfold check_updates_text
  rw [htext]
  rfl

/-- Witness for C3's amended statement at a concrete failing run. -/
theorem C3_amended_cli_failure_witness :
    (c3_state.is_checking && !false) = false ∧
    json_phase c3_env (resolve_flag none (Option.map Prod.fst (none : Option (Bool × Bool))))
      (resolve_flag none (Option.map Prod.snd (none : Option (Bool × Bool))))
      (refresh_pinned_packages c3_env.pin_list_output) = none ∧
    c3_env.text_result = none ∧
    check_updates false none none none c3_env c3_state =
      ⟨0,
       { available_updates := []
         update_count := 0
         last_check_time := c3_state.last_check_time
         is_checking := false
         pinned_packages := refresh_pinned_packages c3_env.pin_list_output },
       true⟩ :=
  ⟨rfl, rfl, rfl, C3_amended_cli_failure false none none none c3_env c3_state rfl rfl rfl⟩

/-- C4: a candidate whose current-version column is empty or equals
"unknown" case-insensitively never reaches the result list, whatever the
`include_unknown` flag — on the free-text path and on the JSON `Data`
path alike. -/
theorem C4_unknown_version_always_dropped :
    (∀ (pinned_packages : List String) (ip iu : Bool) (line : List Char)
        (p0 p1 p2 p3 : List Char) (rest : List (List Char)),
      (splitWs2 (pyStrip line)).map pyStrip = p0 :: p1 :: p2 :: p3 :: rest →
      p2 = [] ∨ lowerChars p2 = "unknown".data →
      processLine pinned_packages ip iu line = none) ∧
    (∀ (pinned_packages : List String) (ip iu : Bool) (item : DataItem) (cv : String),
      item.Version = some cv →
      cv = "" ∨ lowerChars cv.data = "unknown".data →
      processDataItem pinned_packages ip iu item = none) := by
  constructor
  · intro pinned_packages ip iu line p0 p1 p2 p3 rest hsplit hp2
    unfold processLine
    split
    · rfl
    · rw [hsplit]
      dsimp only
      have hver : (match searchVersion p2 with | some v => v | none => p2) = p2 := by
        rcases hp2 with h | h
        · subst h; rfl
        · rw [searchVersion_eq_none p2 (no_digit_of_lower_unknown p2 h)]
      rw [hver]
      have hvalid : is_valid_version_comparison ⟨p2⟩
          ⟨match searchVersion p3 with | some v => v | none => p3⟩ = false := by
        have : ¬(is_valid_version_comparison ⟨p2⟩
            ⟨match searchVersion p3 with | some v => v | none => p3⟩ = true) := by
          rw [valid_iff_spec]
          intro hs
          rcases hp2 with h | h
          · exact hs.1 h
          · exact hs.2.2.1 h
        rw [Bool.not_eq_true] at this
        exact this
      split
      · rfl
      · next hcond =>
        split
        · rfl
        · next hcond2 =>
          exact absurd (by rw [hvalid]; rfl) hcond2
  · intro pinned_packages ip iu item cv hv hcase
    obtain ⟨nm, idv, ver, av⟩ := item
    simp only at hv
    subst hv
    have hvalid : ∀ a : String, is_valid_version_comparison cv a = false := by
      intro a
      have : ¬(is_valid_version_comparison cv a = true) := by
        rw [valid_iff_spec]
        intro hs
        rcases hcase with h | h
        · exact hs.1 (congrArg String.data h)
        · exact hs.2.2.1 h
      rw [Bool.not_eq_true] at this
      exact this
    cases nm with
    | none => rfl
    | some nm0 =>
      cases idv with
      | none => rfl
      | some id0 =>
        cases av with
        | none => rfl
        | some av0 =>
          unfold processDataItem
          dsimp only
          split
          · rfl
          · next hcond2 =>
            split
            · rfl
            · next hcond3 =>
              exact absurd (by rw [hvalid av0]; rfl) hcond3

/-- Witness for C4 at a concrete "Unknown" candidate on both paths, for
both values of `include_unknown`. -/
theorem C4_unknown_version_always_dropped_witness :
    (processLine [] true false c4_line = none ∧
      processLine [] true true c4_line = none) ∧
    (processDataItem [] true false c4_item = none ∧
      processDataItem [] true true c4_item = none) := by
  have hsplit : (splitWs2 (pyStrip c4_line)).map pyStrip =
      "App Name".data :: "App.Id".data :: "Unknown".data :: "2.0".data ::
        ["winget".data] := rfl
  have hunk : ("Unknown".data : List Char) = [] ∨
      lowerChars "Unknown".data = "unknown".data := Or.inr rfl
  have hitem : c4_item.Version = some "Unknown" := rfl
  have hunk2 : ("Unknown" : String) = "" ∨
      lowerChars ("Unknown" : String).data = "unknown".data := Or.inr rfl
  exact ⟨⟨C4_unknown_version_always_dropped.1 [] true false c4_line _ _ _ _ _ hsplit hunk,
          C4_unknown_version_always_dropped.1 [] true true c4_line _ _ _ _ _ hsplit hunk⟩,
         ⟨C4_unknown_version_always_dropped.2 [] true false c4_item _ hitem hunk2,
          C4_unknown_version_always_dropped.2 [] true true c4_item _ hitem hunk2⟩⟩

/-- C6: while a check is in progress, a `force = false` call returns the
last known count, spawns no subprocess, and leaves the entire engine
state (updates, count, last check time, pin set) unchanged. -/
theorem C6_concurrent_guard (ip iu : Option Bool) (config : Option (Bool × Bool))
    (env : CheckEnv) (s : CheckerState) (h : s.is_checking = true) :
    check_updates false ip iu config env s = ⟨s.update_count, s, false⟩ := by
  unfold check_updates
  rw [h]
  rfl

/-- Witness for C6 at a concrete in-progress state. -/
theorem C6_concurrent_guard_witness :
    c6_state.is_checking = true ∧
    check_updates false none none none c6_env c6_state =
      ⟨c6_state.update_count, c6_state, false⟩ :=
  ⟨rfl, C6_concurrent_guard none none none c6_env c6_state rfl⟩

/-- C7: when the pre-install forced check found at least one update,
`install_all_updates` returns true only if the upgrade exit code was
zero and no pre-install id survives the verification re-check; any
surviving pre-install id forces a false return. -/
theorem C7_install_verification (config : Option (Bool × Bool))
    (env : InstallEnv) (s : CheckerState)
    (hpre : (pre_check_state config env s).available_updates ≠ []) :
    ((install_all_updates config env s).ok = true →
      env.upgrade_returncode = some 0 ∧
      ∀ u ∈ (pre_check_state config env s).available_updates,
        ∀ c ∈ (verify_check_state config env s).available_updates, c.id ≠ u.id) ∧
    ((∃ u ∈ (pre_check_state config env s).available_updates,
        ∃ c ∈ (verify_check_state config env s).available_updates, c.id = u.id) →
      (install_all_updates config env s).ok = false) := by
  unfold install_all_updates
  dsimp only
  rw [if_neg hpre]
  cases henv : env.upgrade_returncode with
  | none =>
    refine ⟨fun hok => absurd hok (by simp), fun _ => rfl⟩
  | some rc =>
    dsimp only
    by_cases hrc : rc = 0
    · subst hrc
      rw [if_pos rfl]
      by_cases hsp : ((pre_check_state config env s).available_updates.filter
          (fun u => (verify_check_state config env s).available_updates.any
            (fun c => c.id = u.id))).isEmpty = true
      · rw [still_pending_empty_iff] at hsp
        refine ⟨fun _ => ⟨rfl, hsp⟩, fun hex => ?_⟩
        obtain ⟨u, hu, c, hc, hid⟩ := hex
        exact absurd hid (hsp u hu c hc)
      · rw [Bool.not_eq_true] at hsp
        rw [hsp]
        refine ⟨fun hok => absurd hok (by simp), fun _ => by simp⟩
    · rw [if_neg hrc]
      refine ⟨fun hok => absurd hok (by simp), fun _ => rfl⟩

/-- Witness for C7 at a concrete successful install run. -/
theorem C7_install_verification_witness :
    (pre_check_state none c7_env c7_state).available_updates ≠ [] ∧
    (((install_all_updates none c7_env c7_state).ok = true →
        c7_env.upgrade_returncode = some 0 ∧
        ∀ u ∈ (pre_check_state none c7_env c7_state).available_updates,
          ∀ c ∈ (verify_check_state none c7_env c7_state).available_updates,
            c.id ≠ u.id) ∧
      ((∃ u ∈ (pre_check_state none c7_env c7_state).available_updates,
          ∃ c ∈ (verify_check_state none c7_env c7_state).available_updates,
            c.id = u.id) →
        (install_all_updates none c7_env c7_state).ok = false)) := by
  have hpre : (pre_check_state none c7_env c7_state).available_updates ≠ [] := by
    intro h
    exact List.noConfusion (by rw [← h] : ([] : List UpdateRecord) = _)
  exact ⟨hpre, C7_install_verification none c7_env c7_state hpre⟩

/-- C8: the free-text line "Foo Bar (x64)  Foo.Bar  1.2.3  1.2.4  winget",
with permissive flags and an empty pin set, parses to exactly one record
with name "Foo Bar", id "Foo.Bar", versions "1.2.3" and "1.2.4". -/
theorem C8_free_text_line_parses :
    process_output_section [] true true
      ["Foo Bar (x64)  Foo.Bar  1.2.3  1.2.4  winget".data] =
      [⟨"Foo Bar", "Foo.Bar", "1.2.3", "1.2.4", some "winget"⟩] := rfl

/-- C9 counterexample: a request whose bytes do not decode to a valid
message envelope gets NO reply at all — the server loop `continue`s —
so it is not the case that every request gets exactly one envelope. -/
theorem C9_counterexample_invalid_request_unanswered :
    process_request ([] : List (String × (Nat → Except String Nat)))
      RawRequest.invalid = none := rfl

/-- C9 (amended): every request that decodes to a valid envelope gets
exactly one reply — `command = "response"` exactly when a registered
handler succeeds, otherwise `command = "error"` (unknown command or
handler exception) — while a request that fails to decode is skipped
with no reply. -/
theorem C9_amended_reply_policy (α : Type)
    (handlers : List (String × (α → Except String α))) (cmd : String) (d : α) :
    process_request handlers (RawRequest.invalid) = none ∧
    ∃ m, process_request handlers (RawRequest.valid cmd d) = some m ∧
      (m.command = "response" ∨ m.command = "error") ∧
      (m.command = "response" ↔
        ∃ h r, handlers.lookup cmd = some h ∧ h d = Except.ok r) := by
  refine ⟨rfl, handle_command handlers cmd d, rfl, ?_⟩
  unfold handle_command
  cases hl : handlers.lookup cmd with
  | none =>
    dsimp only
    refine ⟨Or.inr rfl, ?_, ?_⟩
    · intro habs
      exact absurd habs (by decide)
    · rintro ⟨h1, r1, hl1, _⟩
      exact Option.noConfusion hl1
  | some hf =>
    dsimp only
    cases hr : hf d with
    | ok r =>
      dsimp only
      refine ⟨Or.inl rfl, ?_, ?_⟩
      · intro _
        exact ⟨hf, r, rfl, hr⟩
      · intro _
        rfl
    | error e =>
      dsimp only
      refine ⟨Or.inr rfl, ?_, ?_⟩
      · intro habs
        exact absurd habs (by decide)
      · rintro ⟨h2, r2, hl2, hr2⟩
        rw [Option.some.injEq] at hl2
        subst hl2
        rw [hr] at hr2
        exact Except.noConfusion hr2

/-- C10: when the pre-install forced check (include pinned and unknown)
finds no updates, `install_all_updates` returns true immediately: the
upgrade command is never invoked and no verification re-check runs. -/
theorem C10_empty_precheck_short_circuit (config : Option (Bool × Bool))
    (env : InstallEnv) (s : CheckerState)
    (h : (pre_check_state config env s).available_updates = []) :
    install_all_updates config env s =
      ⟨true, false, false, pre_check_state config env s⟩ := by
  unfold install_all_updates
  dsimp only
  rw [if_pos h]

/-- Witness for C10 at a concrete empty pre-check run. -/
theorem C10_empty_precheck_short_circuit_witness :
    (pre_check_state none c10_env c10_state).available_updates = [] ∧
    install_all_updates none c10_env c10_state =
      ⟨true, false, false, pre_check_state none c10_env c10_state⟩ :=
  ⟨rfl, C10_empty_precheck_short_circuit none c10_env c10_state rfl⟩

end WingetUpdater
